import Mathlib

/-!
Verification of `extract_discriminators.py`: a script that computes Anchor
8-byte instruction discriminators as `sha256("global:" ++ name)[:8]` for a
fixed list of 11 instruction names and prints a formatted report.

The development embeds the script shallowly: SHA-256 (FIPS 180-4) is
implemented over `Nat` byte lists, Python's `str.encode()` is UTF-8
encoding, and the report lines mirror the `print` calls of the script.
-/

set_option maxRecDepth 100000

namespace SHA2

/-- Truncate to a 32-bit word. -/
def w32 (n : Nat) : Nat := n % 4294967296

/-- Right rotation of a 32-bit word by `k` bits. -/
def rotr (k n : Nat) : Nat := w32 ((n >>> k) ||| (n <<< (32 - k)))

/-- FIPS 180-4 Σ₀. -/
def bigSigma0 (x : Nat) : Nat := (rotr 2 x) ^^^ (rotr 13 x) ^^^ (rotr 22 x)

/-- FIPS 180-4 Σ₁. -/
def bigSigma1 (x : Nat) : Nat := (rotr 6 x) ^^^ (rotr 11 x) ^^^ (rotr 25 x)

/-- FIPS 180-4 σ₀. -/
def smallSigma0 (x : Nat) : Nat := (rotr 7 x) ^^^ (rotr 18 x) ^^^ (x >>> 3)

/-- FIPS 180-4 σ₁. -/
def smallSigma1 (x : Nat) : Nat := (rotr 17 x) ^^^ (rotr 19 x) ^^^ (x >>> 10)

/-- FIPS 180-4 Ch function. -/
def chFun (x y z : Nat) : Nat := (x &&& y) ^^^ ((x ^^^ 0xFFFFFFFF) &&& z)

/-- FIPS 180-4 Maj function. -/
def majFun (x y z : Nat) : Nat := (x &&& y) ^^^ (x &&& z) ^^^ (y &&& z)

/-- The 64 SHA-256 round constants (FIPS 180-4 4.2.2, in decimal). -/
def kConst : List Nat :=
  [1116352408, 1899447441, 3049323471, 3921009573, 961987163,
   1508970993, 2453635748, 2870763221, 3624381080, 310598401,
   607225278, 1426881987, 1925078388, 2162078206, 2614888103,
   3248222580, 3835390401, 4022224774, 264347078, 604807628,
   770255983, 1249150122, 1555081692, 1996064986, 2554220882,
   2821834349, 2952996808, 3210313671, 3336571891, 3584528711,
   113926993, 338241895, 666307205, 773529912, 1294757372,
   1396182291, 1695183700, 1986661051, 2177026350, 2456956037,
   2730485921, 2820302411, 3259730800, 3345764771, 3516065817,
   3600352804, 4094571909, 275423344, 430227734, 506948616,
   659060556, 883997877, 958139571, 1322822218, 1537002063,
   1747873779, 1955562222, 2024104815, 2227730452, 2361852424,
   2428436474, 2756734187, 3204031479, 3329325298]

/-- The eight working variables of the SHA-256 compression function. -/
structure Hash8 where
  a : Nat
  b : Nat
  c : Nat
  d : Nat
  e : Nat
  f : Nat
  g : Nat
  h : Nat
deriving DecidableEq

/-- SHA-256 initial hash value (FIPS 180-4 5.3.3, in decimal). -/
def h0 : Hash8 :=
  ⟨1779033703, 3144134277, 1013904242, 2773480762,
   1359893119, 2600822924, 528734635, 1541459225⟩

/-- Big-endian 8-byte encoding of a (64-bit) length in bits. -/
def lenBE8 (n : Nat) : List Nat :=
  [(n >>> 56) &&& 255, (n >>> 48) &&& 255, (n >>> 40) &&& 255,
   (n >>> 32) &&& 255, (n >>> 24) &&& 255, (n >>> 16) &&& 255,
   (n >>> 8) &&& 255, n &&& 255]

/-- SHA-256 padding: append `0x80`, zero bytes to reach 56 mod 64, then the
bit length as 8 big-endian bytes. -/
def padMessage (msg : List Nat) : List Nat :=
  msg ++ 0x80 :: List.replicate ((119 - msg.length % 64) % 64) 0
      ++ lenBE8 (8 * msg.length)

/-- Split a byte stream into 64-byte chunks; the fuel bounds the recursion
and is set to the stream length, which one step always exceeds. -/
def chunksGo : Nat → List Nat → List (List Nat)
  | _, [] => []
  | 0, l => [l]
  | fuel + 1, a :: l => ((a :: l).take 64) :: chunksGo fuel (l.drop 63)

/-- Split a byte stream into 64-byte chunks. -/
def chunks64 (l : List Nat) : List (List Nat) := chunksGo l.length l

/-- Group bytes into 32-bit big-endian words. -/
def bytesToWords : List Nat → List Nat
  | a :: b :: c :: d :: rest =>
      ((a <<< 24) ||| (b <<< 16) ||| (c <<< 8) ||| d) :: bytesToWords rest
  | _ => []

/-- Extend the 16-word block to the 64-word message schedule (`k` rounds of
extension remaining). -/
def extendSchedule : Nat → List Nat → List Nat
  | 0, ws => ws
  | k + 1, ws =>
      let n := ws.length
      let w := w32 (smallSigma1 (ws.getD (n - 2) 0) + ws.getD (n - 7) 0 +
                    smallSigma0 (ws.getD (n - 15) 0) + ws.getD (n - 16) 0)
      extendSchedule k (ws ++ [w])

/-- One round of the SHA-256 compression function; `kw` pairs the schedule
word with the round constant. -/
def roundStep (s : Hash8) (kw : Nat × Nat) : Hash8 :=
  let t1 := w32 (s.h + bigSigma1 s.e + chFun s.e s.f s.g + kw.1 + kw.2)
  let t2 := w32 (bigSigma0 s.a + majFun s.a s.b s.c)
  ⟨w32 (t1 + t2), s.a, s.b, s.c, w32 (s.d + t1), s.e, s.f, s.g⟩

/-- Compress one 64-byte block into the running hash value. -/
def compress (hv : Hash8) (block : List Nat) : Hash8 :=
  let ws := extendSchedule 48 (bytesToWords block)
  let s := (ws.zip kConst).foldl roundStep hv
  ⟨w32 (hv.a + s.a), w32 (hv.b + s.b), w32 (hv.c + s.c), w32 (hv.d + s.d),
   w32 (hv.e + s.e), w32 (hv.f + s.f), w32 (hv.g + s.g), w32 (hv.h + s.h)⟩

/-- Big-endian 4-byte encoding of a 32-bit word. -/
def wordBE4 (n : Nat) : List Nat :=
  [(n >>> 24) &&& 255, (n >>> 16) &&& 255, (n >>> 8) &&& 255, n &&& 255]

/-- The eight hash words, in order. -/
def wordsOf (hv : Hash8) : List Nat :=
  [hv.a, hv.b, hv.c, hv.d, hv.e, hv.f, hv.g, hv.h]

/-- SHA-256 of a byte string, as its 32 digest bytes in emission order. -/
def sha256 (msg : List Nat) : List Nat :=
  (wordsOf ((chunks64 (padMessage msg)).foldl compress h0)).flatMap wordBE4

end SHA2

/-- UTF-8 encoding of a single Unicode scalar value, as bytes. -/
def utf8EncodeChar (c : Char) : List Nat :=
  let n := c.toNat
  if n < 0x80 then [n]
  else if n < 0x800 then
    [0xC0 ||| (n >>> 6), 0x80 ||| (n &&& 0x3F)]
  else if n < 0x10000 then
    [0xE0 ||| (n >>> 12), 0x80 ||| ((n >>> 6) &&& 0x3F), 0x80 ||| (n &&& 0x3F)]
  else
    [0xF0 ||| (n >>> 18), 0x80 ||| ((n >>> 12) &&& 0x3F),
     0x80 ||| ((n >>> 6) &&& 0x3F), 0x80 ||| (n &&& 0x3F)]

/-- UTF-8 byte encoding of a string (Python's `str.encode()`). -/
def utf8Encode (s : String) : List Nat := s.data.flatMap utf8EncodeChar

/-- `get_discriminator` of the script: the first 8 bytes of
`sha256("global:" ++ name)`, as a list of byte values. -/
def get_discriminator (name : String) : List Nat :=
  let full_name := "global:" ++ name
  (SHA2.sha256 (utf8Encode full_name)).take 8

/-- The namespaced hash input `full_name = "global:" + name` of
`get_discriminator`. -/
def fullName (name : String) : String := "global:" ++ name

/-- The hard-coded ordered list of instruction names of the script. -/
def instructions : List String :=
  ["initialize",
   "executeTransferHook",
   "updateFeeConfig",
   "addWhitelist",
   "removeWhitelist",
   "addBlacklist",
   "removeBlacklist",
   "setPermanentDelegate",
   "setBlacklistEnabled",
   "setPaused",
   "closeConfig"]

/-- The title printed by the script. -/
def titleLine : String := "SSS-2 Hook Instruction Discriminators:"

/-- Python's string repetition `s * n`. -/
def pyStrMul (s : String) (n : Nat) : String := String.join (List.replicate n s)

/-- The separator printed by the script: `"=" * 50`. -/
def sepLine : String := pyStrMul "=" 50

/-- Python's minimum-width left justification `f"{s:ws}"`: pad with spaces on
the right up to width `w`, never truncate. -/
def ljust (s : String) (w : Nat) : String :=
  s ++ String.mk (List.replicate (w - s.length) ' ')

/-- Python's `str` of a list of ints: decimal entries, comma-and-space
separated, in square brackets. -/
def pyListRepr (l : List Nat) : String :=
  "[" ++ String.intercalate ", " (l.map toString) ++ "]"

/-- One data line of the report: `f"\x7bix:25s\x7d: \x7bdisc\x7d"`. -/
def dataLine (ix : String) : String :=
  ljust ix 25 ++ ": " ++ pyListRepr (get_discriminator ix)

/-- The full standard output of the script, one entry per printed line. -/
def programOutput : List String :=
  titleLine :: sepLine :: instructions.map dataLine

/-- FIPS 180-4 golden test vector: SHA-256 of `"abc"`. -/
theorem sha256_golden_abc :
    SHA2.sha256 (utf8Encode "abc") =
      [186, 120, 22, 191, 143, 1, 207, 234, 65, 65, 64, 222, 93, 174, 34, 35,
       176, 3, 97, 163, 150, 23, 122, 156, 180, 16, 255, 97, 242, 0, 21, 173] := by
  decide

/-- Golden test vector: SHA-256 of the empty byte string. -/
theorem sha256_golden_empty :
    SHA2.sha256 [] =
      [227, 176, 196, 66, 152, 252, 28, 20, 154, 251, 244, 200, 153, 111, 185,
       36, 39, 174, 65, 228, 100, 155, 147, 76, 164, 149, 153, 27, 120, 82,
       184, 85] := by
  decide

/-- Golden value of the discriminator of `"initialize"`. -/
theorem get_discriminator_golden :
    get_discriminator "initialize" = [175, 175, 109, 31, 13, 152, 155, 237] := by
  decide

/-- Golden value of the first data line of the report. -/
theorem dataLine_golden :
    dataLine "initialize" =
      "initialize               : [175, 175, 109, 31, 13, 152, 155, 237]" := by
  decide

theorem sha256_length (msg : List Nat) : (SHA2.sha256 msg).length = 32 := by
  simp [SHA2.sha256, SHA2.wordsOf, SHA2.wordBE4]

theorem mem_wordBE4_lt (n b : Nat) (hb : b ∈ SHA2.wordBE4 n) : b < 256 := by
  simp [SHA2.wordBE4] at hb
  rcases hb with rfl | rfl | rfl | rfl <;>
    exact Nat.lt_succ_of_le Nat.and_le_right

theorem sha256_byte_lt (msg : List Nat) :
    ∀ b ∈ SHA2.sha256 msg, b < 256 := by
  intro b hb
  rw [SHA2.sha256] at hb
  obtain ⟨w, -, hw⟩ := List.mem_flatMap.mp hb
  exact mem_wordBE4_lt w b hw

theorem get_discriminator_eq_fullName (name : String) :
    get_discriminator name = (SHA2.sha256 (utf8Encode (fullName name))).take 8 := rfl

theorem get_discriminator_length (name : String) :
    (get_discriminator name).length = 8 := by
  simp [get_discriminator, List.length_take, sha256_length]

/-- C1: for every string `name`, `compute_discriminator(name)` is exactly the
first 8 bytes, in emission order, of the SHA-256 digest (32 bytes) of the
UTF-8 encoding of `"global:" ++ name`. -/
theorem C1_discriminator_is_sha256_first8 (name : String) :
    (SHA2.sha256 (utf8Encode ("global:" ++ name))).length = 32 ∧
    get_discriminator name =
      (SHA2.sha256 (utf8Encode ("global:" ++ name))).take 8 :=
  ⟨sha256_length _, rfl⟩

/-- C2: the program prints exactly 13 lines: the title, a separator of 50
repeated separator characters, then 11 data lines, each being the name
left-justified to 25 characters, a colon, and the 8 discriminator bytes
rendered as decimal integers, comma-and-space separated, in brackets. -/
theorem C2_output_shape :
    programOutput.length = 13 ∧
    programOutput.head? = some titleLine ∧
    programOutput[1]? = some (String.mk (List.replicate 50 '=')) ∧
    programOutput.drop 2 =
      instructions.map
        (fun ix => ljust ix 25 ++ ": " ++ pyListRepr (get_discriminator ix)) ∧
    instructions.all (fun ix => (get_discriminator ix).length == 8) = true := by
  decide

/-- C3: the driver holds exactly the 11 documented operation names in the
documented order, with no duplicates, and the report's data lines enumerate
exactly those names in that order. -/
theorem C3_instruction_list :
    instructions =
      ["initialize", "executeTransferHook", "updateFeeConfig", "addWhitelist",
       "removeWhitelist", "addBlacklist", "removeBlacklist",
       "setPermanentDelegate", "setBlacklistEnabled", "setPaused",
       "closeConfig"] ∧
    instructions.length = 11 ∧ instructions.Nodup ∧
    programOutput.drop 2 = instructions.map dataLine :=
  ⟨rfl, rfl, by decide, rfl⟩

/-- C4: for every string `name`, `compute_discriminator(name)` has exactly 8
elements, each an unsigned 8-bit value below 256. -/
theorem C4_eight_bytes_below_256 (name : String) :
    (get_discriminator name).length = 8 ∧
    ∀ b ∈ get_discriminator name, b < 256 := by
  refine ⟨get_discriminator_length name, fun b hb => ?_⟩
  exact sha256_byte_lt _ b (List.take_subset _ _ hb)

/-- C5: `compute_discriminator` is total: every string, the empty string and
non-ASCII text included, yields a defined 8-byte result (the embedding is a
pure function, so there are no side effects or failure modes). -/
theorem C5_total_on_all_text :
    (∀ name : String, ∃ d : List Nat, get_discriminator name = d ∧ d.length = 8) ∧
    (get_discriminator "").length = 8 ∧
    (get_discriminator "héllo⚡").length = 8 :=
  ⟨fun name => ⟨get_discriminator name, rfl, get_discriminator_length name⟩,
   get_discriminator_length "", get_discriminator_length "héllo⚡"⟩

/-- C6: `compute_discriminator` is deterministic: two calls on the same name
give byte-identical output. -/
theorem C6_deterministic (n1 n2 : String) (h : n1 = n2) :
    get_discriminator n1 = get_discriminator n2 := by rw [h]

/-- Witness for C6 at the concrete name `"initialize"`. -/
theorem C6_deterministic_witness :
    get_discriminator "initialize" = get_discriminator "initialize" :=
  C6_deterministic "initialize" "initialize" rfl

/-- C7: the 11 hard-coded names have pairwise distinct discriminators. -/
theorem C7_pairwise_distinct :
    (instructions.map get_discriminator).Nodup ∧
    ∀ n1 ∈ instructions, ∀ n2 ∈ instructions,
      n1 ≠ n2 → get_discriminator n1 ≠ get_discriminator n2 := by
  have hnd : (instructions.map get_discriminator).Nodup := by decide
  exact ⟨hnd, fun n1 h1 n2 h2 hne heq =>
    hne (List.inj_on_of_nodup_map hnd h1 h2 heq)⟩

/-- C8: the run is a single bounded pass: exactly 11 loop iterations (one
data line per instruction), 13 lines in all, and the final line printed is
the data line of the last instruction, `closeConfig`. -/
theorem C8_bounded_single_pass :
    instructions.length = 11 ∧
    (instructions.map dataLine).length = instructions.length ∧
    programOutput.length = 2 + instructions.length ∧
    programOutput.getLast? = some (dataLine "closeConfig") := by
  refine ⟨rfl, by simp, rfl, by decide⟩

/-- C9: prefixing with `"global:"` is injective: distinct names give
distinct namespaced hash inputs. -/
theorem C9_prefixing_injective (n1 n2 : String) (h : n1 ≠ n2) :
    fullName n1 ≠ fullName n2 := by
  intro heq
  apply h
  have hd : (fullName n1).data = (fullName n2).data := congrArg String.data heq
  simp only [fullName, String.data_append] at hd
  exact String.ext (List.append_cancel_left hd)

/-- Witness for C9 at the concrete names `"initialize"` and `"closeConfig"`. -/
theorem C9_prefixing_injective_witness :
    fullName "initialize" ≠ fullName "closeConfig" :=
  C9_prefixing_injective "initialize" "closeConfig" (by decide)

/-- C10: every hard-coded name fits in the 25-character field: its length is
at most 25, the padded field is exactly 25 characters, it is the name
followed by spaces (never truncated), and it is what each data line starts
with. -/
theorem C10_name_field_never_truncated (ix : String) (hix : ix ∈ instructions) :
    ix.length ≤ 25 ∧
    (ljust ix 25).length = 25 ∧
    ljust ix 25 = ix ++ String.mk (List.replicate (25 - ix.length) ' ') ∧
    (dataLine ix).data.take 25 = (ljust ix 25).data := by
  have hall : ∀ s ∈ instructions,
      s.length ≤ 25 ∧
      (ljust s 25).length = 25 ∧
      ljust s 25 = s ++ String.mk (List.replicate (25 - s.length) ' ') ∧
      (dataLine s).data.take 25 = (ljust s 25).data := by decide
  exact hall ix hix

/-- Witness for C10 at the concrete name `"initialize"`. -/
theorem C10_name_field_never_truncated_witness :
    ("initialize" : String).length ≤ 25 ∧
    (ljust "initialize" 25).length = 25 ∧
    ljust "initialize" 25 =
      "initialize" ++ String.mk (List.replicate (25 - ("initialize" : String).length) ' ') ∧
    (dataLine "initialize").data.take 25 = (ljust "initialize" 25).data :=
  C10_name_field_never_truncated "initialize" (by decide)
